import Mathlib

/-!
Verification of the ActiveTrail SDK specification against its source.

The development shallowly embeds the parts of the SDK that the checked
claims are about:

* the dataclass-based DTO layer of `active_trail/dto/base.py`
  (`BaseDTO.to_dict` / `BaseDTO.from_dict`, field-mapping tables,
  optional-field elision) together with the concrete `ContactDTO`
  schema of `active_trail/dto/contacts.py`;
* the pydantic validation pipeline of
  `active_trail/dto/sms_campaigns.py` (`SMSCampaignDTO`,
  `ApiSMSMobileDTO`) and the request-issuing structure of
  `active_trail/sms_campaigns.py` (`SMSCampaignsAPI.create`);
* the HTTP-status-to-exception mapping of `active_trail/client.py`
  and the exception hierarchy of `active_trail/exceptions.py`;
* the query-parameter assembly of `CrudAPI.list` and
  `NestedResourceAPI.list` in `active_trail/base_api.py`;
* the phone-number validators of `active_trail/utils.py` and
  `active_trail/dto/sms_campaigns.py`.

Python dictionaries are modelled as association lists in insertion
order with overwrite-on-existing-key semantics (`dictInsert`), which is
exactly the observable behaviour of CPython dicts for the operations
the source performs (literal construction, `**` merge, `pop` plus
re-assignment, lookup with default).
-/

namespace ActiveTrail

/-- Wire values occurring in DTO fields. `vdt iso` stands for a Python
`datetime` object whose `isoformat()` rendering is `iso`; all other
constructors are JSON primitives. This covers the flat field values the
claims quantify over. -/
inductive JVal where
  | vnull
  | vstr (s : String)
  | vint (n : Int)
  | vbool (b : Bool)
  | vdt (iso : String)
  deriving DecidableEq, Repr

/-- Test used by `BaseDTO.to_dict` for the `value is None` comparison. -/
def JVal.isNull : JVal → Bool
  | JVal.vnull => true
  | _ => false

/-- Test for the `isinstance(value, datetime)` branch of `BaseDTO.to_dict`. -/
def JVal.isDt : JVal → Bool
  | JVal.vdt _ => true
  | _ => false

/-- Value conversion performed per field by `BaseDTO.to_dict`
(`dto/base.py` lines 47-84): a `datetime` is replaced by its
`isoformat()` string; primitive values are kept as they are. -/
def serializeVal : JVal → JVal
  | JVal.vdt iso => JVal.vstr iso
  | v => v

/-- Keys of an association-list dictionary, in insertion order. -/
def keysOf (l : List (String × JVal)) : List String := l.map Prod.fst

/-- Python `k in d` membership test on the dictionary model. -/
def hasKey (l : List (String × JVal)) (k : String) : Bool :=
  l.any (fun p => p.1 == k)

/-- CPython dict assignment `d[k] = v`: an existing key keeps its
insertion position and gets the new value, a fresh key is appended. -/
def dictInsert (l : List (String × JVal)) (k : String) (v : JVal) :
    List (String × JVal) :=
  if hasKey l k then l.map (fun p => if p.1 == k then (k, v) else p)
  else l ++ [(k, v)]

/-- Building a Python dict from a sequence of key-value pairs in order
(dict literals and `**` merges). -/
def pyDict (items : List (String × JVal)) : List (String × JVal) :=
  items.foldl (fun acc p => dictInsert acc p.1 p.2) []

/-- One declared dataclass field: its Python name and its declared
default (`none` means the field is required and has no default). -/
structure FieldSpec where
  name : String
  dflt : Option JVal
  deriving DecidableEq, Repr

/-- A dataclass DTO schema as `BaseDTO` subclasses declare it: the field
list (in declaration order), the `_api_field_mapping` table and the
`_optional_fields` list (`dto/base.py` lines 25-26). -/
structure Schema where
  fields : List FieldSpec
  mapping : List (String × String)
  optionalFields : List String
  deriving DecidableEq, Repr

/-- `self._api_field_mapping.get(field_name, field_name)`
(`dto/base.py` line 45). -/
def toWireName (mapping : List (String × String)) (fieldName : String) : String :=
  (mapping.lookup fieldName).getD fieldName

/-- The elision test of `BaseDTO.to_dict` (`dto/base.py` line 41):
`value is None and field_name in self._optional_fields`. -/
def skipField (sc : Schema) (fv : String × JVal) : Bool :=
  fv.2.isNull && sc.optionalFields.contains fv.1

/-- `BaseDTO.to_dict` (`dto/base.py` lines 28-92) on an instance whose
field values are flat: iterate over the fields in declaration order,
skip a `None` value whose field is listed in `_optional_fields`, rename
through the mapping table, convert the value, and store into the result
dict. -/
def toDict (sc : Schema) (data : List (String × JVal)) : List (String × JVal) :=
  data.foldl
    (fun result fv =>
      if skipField sc fv then result
      else dictInsert result (toWireName sc.mapping fv.1) (serializeVal fv.2))
    []

/-- Lookup in the reversed mapping built by `BaseDTO.from_dict`
(`dto/base.py` lines 106, 112): `reverse_mapping = {v: k for k, v in
mapping.items()}` (a later pair wins on a duplicate wire name) followed
by `reverse_mapping.get(field_name, field_name)`. -/
def revGet (mapping : List (String × String)) (wireName : String) : String :=
  (((mapping.map (fun p => (p.2, p.1))).reverse).lookup wireName).getD wireName

/-- The keyword-argument dict assembled by `BaseDTO.from_dict`
(`dto/base.py` lines 109-113). -/
def kwargsOf (sc : Schema) (data : List (String × JVal)) : List (String × JVal) :=
  data.foldl (fun acc wv => dictInsert acc (revGet sc.mapping wv.1) wv.2) []

/-- Python dataclass constructor argument binding for `cls(**kwargs)`
(`dto/base.py` line 115): every declared field takes the keyword value
when present and its declared default otherwise; a required field that
is neither passed nor defaulted is a `TypeError`. -/
def buildFields (kwargs : List (String × JVal)) :
    List FieldSpec → Except String (List (String × JVal))
  | [] => Except.ok []
  | f :: fs =>
    match kwargs.lookup f.name with
    | some v => (buildFields kwargs fs).map (fun rest => (f.name, v) :: rest)
    | none =>
      match f.dflt with
      | some d => (buildFields kwargs fs).map (fun rest => (f.name, d) :: rest)
      | none => Except.error ("missing required argument " ++ f.name)

/-- `BaseDTO.from_dict` (`dto/base.py` lines 94-115): reverse-map every
incoming key and call the dataclass constructor on the resulting
keyword dict. A keyword that does not name a declared field makes
`cls(**kwargs)` raise a `TypeError` (unexpected keyword argument). -/
def fromDict (sc : Schema) (data : List (String × JVal)) :
    Except String (List (String × JVal)) :=
  if (kwargsOf sc data).all (fun kv => sc.fields.any (fun f => f.name == kv.1)) then
    buildFields (kwargsOf sc data) sc.fields
  else Except.error "unexpected keyword argument"

/-- Proof-side normal form of `toDict`: the key-value pairs `to_dict`
inserts into its result dict, in iteration order, before dict assembly. -/
def wirePairs (sc : Schema) (data : List (String × JVal)) : List (String × JVal) :=
  data.filterMap (fun fv =>
    if skipField sc fv then none
    else some (toWireName sc.mapping fv.1, serializeVal fv.2))

/-- Proof-side normal form of the keyword dict `from_dict` rebuilds from
a `to_dict` output: the same pairs under their Python field names. -/
def kwPairs (sc : Schema) (data : List (String × JVal)) : List (String × JVal) :=
  data.filterMap (fun fv =>
    if skipField sc fv then none
    else some (fv.1, serializeVal fv.2))

/-- Success test for an `Except` result (a Python call that did not raise). -/
def exceptOk {ε α : Type} : Except ε α → Bool
  | Except.ok _ => true
  | Except.error _ => false

/-- The `ContactDTO` schema of `dto/contacts.py` lines 11-44: thirteen
fields, `email` required without default, every other field defaulted
to `None`; the `_api_field_mapping` and `_optional_fields` tables as
declared. -/
def contactSchema : Schema :=
  { fields :=
      [ ⟨"email", none⟩,
        ⟨"first_name", some JVal.vnull⟩,
        ⟨"last_name", some JVal.vnull⟩,
        ⟨"phone", some JVal.vnull⟩,
        ⟨"mobile_phone", some JVal.vnull⟩,
        ⟨"address", some JVal.vnull⟩,
        ⟨"city", some JVal.vnull⟩,
        ⟨"state", some JVal.vnull⟩,
        ⟨"zip_code", some JVal.vnull⟩,
        ⟨"country", some JVal.vnull⟩,
        ⟨"company", some JVal.vnull⟩,
        ⟨"birthday", some JVal.vnull⟩,
        ⟨"custom_fields", some JVal.vnull⟩ ],
    mapping :=
      [ ("first_name", "firstName"),
        ("last_name", "lastName"),
        ("mobile_phone", "mobilePhone"),
        ("zip_code", "zip"),
        ("custom_fields", "customFields") ],
    optionalFields :=
      [ "first_name", "last_name", "phone", "mobile_phone",
        "address", "city", "state", "zip_code", "country",
        "company", "birthday", "custom_fields" ] }

/-- A `ContactDTO` instance constructed with `email="a@example.com"`
and every other field left unset (hence `None`). -/
def contactEmailOnly : List (String × JVal) :=
  [ ("email", JVal.vstr "a@example.com"),
    ("first_name", JVal.vnull),
    ("last_name", JVal.vnull),
    ("phone", JVal.vnull),
    ("mobile_phone", JVal.vnull),
    ("address", JVal.vnull),
    ("city", JVal.vnull),
    ("state", JVal.vnull),
    ("zip_code", JVal.vnull),
    ("country", JVal.vnull),
    ("company", JVal.vnull),
    ("birthday", JVal.vnull),
    ("custom_fields", JVal.vnull) ]

/-- Python `str.isalpha()` as used by the `from_name` validators: true
exactly when the string is non-empty and every character is alphabetic.
Python classifies a character as alphabetic by its Unicode category
(every Unicode letter counts, not only ASCII); that classification is
external table data, so it is taken here as a parameter `alpha`, and
every validation theorem below holds for every classification — in
particular for the true Unicode one. -/
def pyIsAlpha (alpha : Char → Bool) (s : String) : Bool :=
  !s.data.isEmpty && s.data.all alpha

/-- The restriction of the Unicode alphabetic classification to the
ASCII range. It agrees with Python `str.isalpha()` on every ASCII
string; concrete witnesses and counterexamples, all of whose sender
names are ASCII, instantiate `alpha` with it. -/
def asciiAlpha : Char → Bool := Char.isAlpha

/-- Python truthiness of an optional string (`not self.from_name`):
falsy when absent or empty. -/
def pyTruthyStr : Option String → Bool
  | none => false
  | some s => !s.data.isEmpty

/-- Python truthiness of an optional integer
(`not self.sms_sending_profile_id`): falsy when absent or zero. -/
def pyTruthyInt : Option Int → Bool
  | none => false
  | some n => n != 0

/-- The `validate_from_name` field validator shared verbatim by
`SMSCampaignDTO` (`dto/sms_campaigns.py` lines 120-124) and
`ApiSMSCampaignDetailsDTO` (lines 302-306): a supplied value must
satisfy `v.isalpha() and len(v) <= 11`, with `isalpha` over the
alphabetic classification `alpha`. -/
def validateFromNameCheck (alpha : Char → Bool) : Option String → Bool
  | none => true
  | some s => pyIsAlpha alpha s && decide (s.length ≤ 11)

/-- Constructor input for `SMSCampaignDTO`
(`dto/sms_campaigns.py` lines 85-130). A `none` in a required field
means the key was absent from the input mapping; `from_name` and the
other optional fields default to `None`, so absence and an explicit
`None` coincide. `segment` and `scheduling` accept free-form mappings
(the dict side of their `Union` annotation). -/
structure SMSCampaignInput where
  name : Option String
  content : Option String
  unsubscribe_text : Option String
  segment : Option (List (String × JVal))
  scheduling : Option (List (String × JVal))
  from_name : Option String := none
  can_unsubscribe : Option Bool := none
  is_link_tracking : Option Bool := none
  sms_sending_profile_id : Option Int := none
  id : Option Int := none
  deriving DecidableEq, Repr

/-- Pydantic validation of `SMSCampaignDTO`
(`dto/sms_campaigns.py` lines 101-130): required fields must be
present, the supplied `from_name` must pass `validate_from_name`, and
the `validate_sender_info` model validator raises when
`not self.from_name and not self.sms_sending_profile_id`. The result
of a successful validation is the model itself (the validators return
`v` resp. `self` unchanged). -/
def validateSMSCampaign (alpha : Char → Bool) (inp : SMSCampaignInput) :
    Except String SMSCampaignInput :=
  if inp.name.isNone then Except.error "name field required"
  else if inp.content.isNone then Except.error "content field required"
  else if inp.unsubscribe_text.isNone then Except.error "unsubscribe_text field required"
  else if inp.segment.isNone then Except.error "segment field required"
  else if inp.scheduling.isNone then Except.error "scheduling field required"
  else if !(validateFromNameCheck alpha inp.from_name) then
    Except.error "from_name must be up to 11 English letters without special characters or spaces"
  else if !(pyTruthyStr inp.from_name) && !(pyTruthyInt inp.sms_sending_profile_id) then
    Except.error "Either from_name or sms_sending_profile_id must be provided"
  else Except.ok inp

/-- An HTTP request issued by `SMSCampaignsAPI`. The payload is recorded
as the validated model; `create` posts its `to_dict()` rendering, which
does not affect whether a request is issued. -/
structure SMSRequest where
  method : String
  path : String
  payload : SMSCampaignInput
  deriving DecidableEq, Repr

/-- The HTTP requests issued by `SMSCampaignsAPI.create`
(`sms_campaigns.py` lines 183-288): `_validate_and_convert` (lines
48-71) validates the campaign against `SMSCampaignDTO` and re-raises
any `ValidationError`; only after it returns does `create` call
`self.client.post(f"smscampaign/Campaign", json=campaign_data)`. -/
def smsCreateRequests (alpha : Char → Bool) (campaign : SMSCampaignInput) :
    List SMSRequest :=
  match validateSMSCampaign alpha campaign with
  | Except.error _ => []
  | Except.ok c => [⟨"POST", "smscampaign/Campaign", c⟩]

/-- The HTTP requests issued by `SMSCampaignsAPI.update`
(`sms_campaigns.py` lines 290-374): the campaign is validated first;
then a missing or falsy `id` raises `ValueError` before the wire; only
then does `update` call `self.client.put(...)`. -/
def smsUpdateRequests (alpha : Char → Bool) (campaign : SMSCampaignInput) :
    List SMSRequest :=
  match validateSMSCampaign alpha campaign with
  | Except.error _ => []
  | Except.ok c =>
    if pyTruthyInt c.id then
      [⟨"PUT", "smscampaign/Campaign/" ++ toString (c.id.getD 0), c⟩]
    else []

/-- Python `s.startswith(pre)`, computed on the character lists. -/
def strStartsWith (s pre : String) : Bool :=
  pre.data.isPrefixOf s.data

/-- The `validate_phone_number` model validator of `ApiSMSMobileDTO`
(`dto/sms_campaigns.py` lines 276-281): raises when
`not self.phone_number or not self.phone_number.startswith("+")`. -/
def validateApiSMSMobile (phone_number : String) : Except String String :=
  if phone_number.data.isEmpty || !(strStartsWith phone_number "+") then
    Except.error "Phone number must start with plus and include country code"
  else Except.ok phone_number

/-- Tail check of the regex `^(\+972|0)(5[0-9]{8})$`: a `5` followed by
exactly eight digits, end of string. -/
def ilDigitsTail : List Char → Bool
  | c :: ds => c == '5' && decide (ds.length = 8) && ds.all Char.isDigit
  | [] => false

/-- `validate_israeli_phone_number` (`utils.py` lines 43-51): matches
the anchored regex `^(\+972|0)(5[0-9]{8})$`, so the accepted prefixes
are the country code `+972` or the local leading `0`. -/
def validateIsraeliPhoneNumber (phone : String) : Bool :=
  if strStartsWith phone "+972" then ilDigitsTail (phone.data.drop 4)
  else if strStartsWith phone "0" then ilDigitsTail (phone.data.drop 1)
  else false

/-- The exception classes of `exceptions.py` plus the Python built-in
root `Exception`. -/
inductive ExcKind where
  | pyException
  | activeTrailError
  | authenticationError
  | rateLimitError
  | validationError
  | notFoundError
  | serverError
  | networkError
  deriving DecidableEq, Repr

/-- The direct base class of each exception, as declared in
`exceptions.py` lines 6-38: `ActiveTrailError(Exception)` and the six
typed errors all subclassing `ActiveTrailError`. -/
def excParent : ExcKind → Option ExcKind
  | ExcKind.pyException => none
  | ExcKind.activeTrailError => some ExcKind.pyException
  | ExcKind.authenticationError => some ExcKind.activeTrailError
  | ExcKind.rateLimitError => some ExcKind.activeTrailError
  | ExcKind.validationError => some ExcKind.activeTrailError
  | ExcKind.notFoundError => some ExcKind.activeTrailError
  | ExcKind.serverError => some ExcKind.activeTrailError
  | ExcKind.networkError => some ExcKind.activeTrailError

/-- Reflexive-transitive subclass relation generated by `excParent`;
a Python `except C` handler catches an exception `e` exactly when the
class of `e` is a subclass of `C` in this sense. -/
inductive IsSubclassOf : ExcKind → ExcKind → Prop where
  | refl (c : ExcKind) : IsSubclassOf c c
  | step {a b c : ExcKind} : excParent a = some b → IsSubclassOf b c →
      IsSubclassOf a c

/-- The exception raised by the `requests.exceptions.HTTPError` handler
of `ActiveTrailClient.request` (`client.py` lines 233-248) for a
non-2xx status: 401 raises `AuthenticationError`, 429 raises
`RateLimitError`, every other status raises the generic
`ActiveTrailError`. The async `AsyncActiveTrailClient._request`
(`client.py` lines 100-109) uses the identical mapping. -/
def mapHTTPStatusError (status : Nat) : ExcKind :=
  if status == 401 then ExcKind.authenticationError
  else if status == 429 then ExcKind.rateLimitError
  else ExcKind.activeTrailError

/-- The exception raised by the `requests.exceptions.RequestException`
handler of `ActiveTrailClient.request` (`client.py` lines 250-251) on a
connection or transport failure: the generic `ActiveTrailError`, not
`NetworkError`. The async variant (lines 111-112) behaves the same. -/
def requestFailureError : ExcKind := ExcKind.activeTrailError

/-- An HTTP request as handed to the transport client: method, path and
query-parameter dict. -/
structure HttpRequest where
  method : String
  path : String
  params : List (String × JVal)
  deriving DecidableEq, Repr

/-- `CrudAPI.list` (`base_api.py` lines 45-63): builds
`params = {"limit": limit, "offset": offset, **kwargs}` and issues
`GET resource_path` with exactly those query parameters. -/
def crudList (resource_path : String) (limit offset : Int)
    (kwargs : List (String × JVal)) : HttpRequest :=
  ⟨"GET", resource_path,
    pyDict ([("limit", JVal.vint limit), ("offset", JVal.vint offset)] ++ kwargs)⟩

/-- `NestedResourceAPI.list` (`base_api.py` lines 136-158): the same
parameter dict, issued against the nested path
`parent_path/parent_id/resource_path`. -/
def nestedList (parent_path parent_id resource_path : String)
    (limit offset : Int) (kwargs : List (String × JVal)) : HttpRequest :=
  ⟨"GET", parent_path ++ "/" ++ parent_id ++ "/" ++ resource_path,
    pyDict ([("limit", JVal.vint limit), ("offset", JVal.vint offset)] ++ kwargs)⟩

/-- A `ContactDTO` instance with an email, a first name, a mobile phone
and a zip code set, used to exercise the mapped and unmapped fields of
the round-trip law. -/
def sampleContact : List (String × JVal) :=
  [ ("email", JVal.vstr "a@example.com"),
    ("first_name", JVal.vstr "Ann"),
    ("last_name", JVal.vnull),
    ("phone", JVal.vnull),
    ("mobile_phone", JVal.vstr "+972501234567"),
    ("address", JVal.vnull),
    ("city", JVal.vnull),
    ("state", JVal.vnull),
    ("zip_code", JVal.vstr "12345"),
    ("country", JVal.vnull),
    ("company", JVal.vnull),
    ("birthday", JVal.vnull),
    ("custom_fields", JVal.vnull) ]

/-- A complete SMS campaign input with all required fields present and
neither sender field supplied. -/
def smsNeitherSender : SMSCampaignInput :=
  { name := some "Summer Sale SMS",
    content := some "Get 20 percent off with code SUMMER20",
    unsubscribe_text := some "Reply STOP to unsubscribe",
    segment := some [("group_ids", JVal.vint 123)],
    scheduling := some [("scheduled_time_zone", JVal.vstr "Israel")] }

/-- The same campaign with both a sender name and a sending-profile id
supplied. -/
def smsBothSenders : SMSCampaignInput :=
  { smsNeitherSender with
    from_name := some "Brand",
    sms_sending_profile_id := some 5 }

/-- The same campaign with only a sender name supplied. -/
def smsFromNameOnly : SMSCampaignInput :=
  { smsNeitherSender with from_name := some "Promo" }

/-! ## Dictionary lemmas -/

theorem hasKey_iff (l : List (String × JVal)) (k : String) :
    hasKey l k = true ↔ k ∈ keysOf l := by
  simp [hasKey, keysOf, List.any_eq_true, List.mem_map, beq_iff_eq]

theorem dictInsert_fresh (l : List (String × JVal)) (k : String) (v : JVal)
    (h : k ∉ keysOf l) : dictInsert l k v = l ++ [(k, v)] := by
  have hb : hasKey l k = false := by
    cases hht : hasKey l k with
    | false => rfl
    | true => exact absurd ((hasKey_iff l k).mp hht) h
  simp [dictInsert, hb]

theorem foldl_dictInsert_fresh (ps : List (String × JVal)) :
    ∀ acc : List (String × JVal), (keysOf ps).Nodup →
      (∀ k ∈ keysOf ps, k ∉ keysOf acc) →
      ps.foldl (fun a p => dictInsert a p.1 p.2) acc = acc ++ ps := by
  induction ps with
  | nil => intro acc _ _; simp
  | cons p ps ih =>
    intro acc hnd hdis
    have hk : keysOf (p :: ps) = p.1 :: keysOf ps := by simp [keysOf]
    rw [hk] at hnd hdis
    have hfresh : p.1 ∉ keysOf acc := hdis p.1 (by simp)
    have hstep : dictInsert acc p.1 p.2 = acc ++ [p] := by
      rw [dictInsert_fresh acc p.1 p.2 hfresh]
    have hnd2 := (List.nodup_cons.mp hnd).2
    have hhd := (List.nodup_cons.mp hnd).1
    have hdis2 : ∀ k ∈ keysOf ps, k ∉ keysOf (acc ++ [p]) := by
      intro k hkmem
      have hka : k ∉ keysOf acc := hdis k (by simp [hkmem])
      have hkp : k ≠ p.1 := fun he => hhd (he ▸ hkmem)
      simp [keysOf, List.map_append] at hka ⊢
      exact ⟨fun b hb => hka b hb, hkp⟩
    rw [List.foldl_cons, hstep, ih (acc ++ [p]) hnd2 hdis2]
    simp

theorem pyDict_self (ps : List (String × JVal)) (h : (keysOf ps).Nodup) :
    pyDict ps = ps := by
  simpa [pyDict] using foldl_dictInsert_fresh ps [] h (by simp [keysOf])

/-! ## C8: list query parameters -/

/-- C8: a call to the generic resource list operation with `limit=10`,
`offset=5` and additional keyword filters issues a GET whose query
parameters are exactly `{"limit": 10, "offset": 5}` merged with the
filters, with no extra keys, renaming or omissions — for both
`CrudAPI.list` and `NestedResourceAPI.list`. The hypotheses record what
Python keyword binding guarantees: `**kwargs` has distinct keys and can
never rebind `limit` or `offset`. -/
theorem list_query_params_exact (resource_path parent_path parent_id nested_path : String)
    (kwargs : List (String × JVal))
    (hnd : (keysOf kwargs).Nodup)
    (hl : "limit" ∉ keysOf kwargs) (ho : "offset" ∉ keysOf kwargs) :
    crudList resource_path 10 5 kwargs =
      ⟨"GET", resource_path,
        ("limit", JVal.vint 10) :: ("offset", JVal.vint 5) :: kwargs⟩ ∧
    nestedList parent_path parent_id nested_path 10 5 kwargs =
      ⟨"GET", parent_path ++ "/" ++ parent_id ++ "/" ++ nested_path,
        ("limit", JVal.vint 10) :: ("offset", JVal.vint 5) :: kwargs⟩ := by
  have hkeq :
      keysOf (("limit", JVal.vint 10) :: ("offset", JVal.vint 5) :: kwargs) =
        "limit" :: "offset" :: keysOf kwargs := by
    simp [keysOf]
  have hkeys :
      (keysOf (("limit", JVal.vint 10) :: ("offset", JVal.vint 5) :: kwargs)).Nodup := by
    rw [hkeq]
    refine List.nodup_cons.mpr ⟨?_, List.nodup_cons.mpr ⟨ho, hnd⟩⟩
    intro hmem
    rcases List.mem_cons.mp hmem with he | hm
    · exact absurd he (by decide)
    · exact hl hm
  have hp :
      pyDict (("limit", JVal.vint 10) :: ("offset", JVal.vint 5) :: kwargs) =
        ("limit", JVal.vint 10) :: ("offset", JVal.vint 5) :: kwargs :=
    pyDict_self _ hkeys
  refine ⟨?_, ?_⟩
  · show HttpRequest.mk "GET" resource_path
        (pyDict (("limit", JVal.vint 10) :: ("offset", JVal.vint 5) :: kwargs)) = _
    rw [hp]
  · show HttpRequest.mk "GET" (parent_path ++ "/" ++ parent_id ++ "/" ++ nested_path)
        (pyDict (("limit", JVal.vint 10) :: ("offset", JVal.vint 5) :: kwargs)) = _
    rw [hp]

/-- Witness for C8 at the filters used by the repository test suite. -/
theorem list_query_params_witness :
    crudList "contacts" 10 5 [("filter", JVal.vstr "test")] =
      ⟨"GET", "contacts",
        [("limit", JVal.vint 10), ("offset", JVal.vint 5), ("filter", JVal.vstr "test")]⟩ ∧
    nestedList "contacts" "123" "groups" 10 5 [("filter", JVal.vstr "test")] =
      ⟨"GET", "contacts" ++ "/" ++ "123" ++ "/" ++ "groups",
        [("limit", JVal.vint 10), ("offset", JVal.vint 5), ("filter", JVal.vstr "test")]⟩ :=
  list_query_params_exact "contacts" "contacts" "123" "groups" [("filter", JVal.vstr "test")]
    (by decide) (by decide) (by decide)

/-! ## C1: round-trip lemmas -/

theorem isNull_iff (v : JVal) : v.isNull = true ↔ v = JVal.vnull := by
  cases v <;> simp [JVal.isNull]

theorem serializeVal_of_not_dt (v : JVal) (h : v.isDt = false) :
    serializeVal v = v := by
  cases v <;> simp_all [JVal.isDt, serializeVal]

theorem wirePairs_cons (sc : Schema) (fv : String × JVal)
    (rest : List (String × JVal)) :
    wirePairs sc (fv :: rest) =
      if skipField sc fv then wirePairs sc rest
      else (toWireName sc.mapping fv.1, serializeVal fv.2) :: wirePairs sc rest := by
  by_cases h : skipField sc fv = true <;> simp [wirePairs, List.filterMap_cons, h]

theorem kwPairs_cons (sc : Schema) (fv : String × JVal)
    (rest : List (String × JVal)) :
    kwPairs sc (fv :: rest) =
      if skipField sc fv then kwPairs sc rest
      else (fv.1, serializeVal fv.2) :: kwPairs sc rest := by
  by_cases h : skipField sc fv = true <;> simp [kwPairs, List.filterMap_cons, h]

theorem toDict_foldl_aux (sc : Schema) (data : List (String × JVal)) :
    ∀ acc : List (String × JVal),
      data.foldl
        (fun result fv =>
          if skipField sc fv then result
          else dictInsert result (toWireName sc.mapping fv.1) (serializeVal fv.2))
        acc
      = (wirePairs sc data).foldl (fun a p => dictInsert a p.1 p.2) acc := by
  induction data with
  | nil => intro acc; simp [wirePairs]
  | cons fv rest ih =>
    intro acc
    by_cases h : skipField sc fv = true
    · simp [wirePairs, List.filterMap_cons, h, ih]
    · simp only [Bool.not_eq_true] at h
      simp [wirePairs, List.filterMap_cons, h, ih]

theorem toDict_eq_pyDict (sc : Schema) (data : List (String × JVal)) :
    toDict sc data = pyDict (wirePairs sc data) := by
  simpa [toDict, pyDict] using toDict_foldl_aux sc data []

theorem kwargsOf_foldl_aux (sc : Schema) (data : List (String × JVal)) :
    ∀ acc : List (String × JVal),
      data.foldl (fun a wv => dictInsert a (revGet sc.mapping wv.1) wv.2) acc
      = (data.map (fun wv => (revGet sc.mapping wv.1, wv.2))).foldl
          (fun a p => dictInsert a p.1 p.2) acc := by
  induction data with
  | nil => intro acc; rfl
  | cons wv rest ih => intro acc; simp [ih]

theorem kwargsOf_eq_pyDict (sc : Schema) (data : List (String × JVal)) :
    kwargsOf sc data =
      pyDict (data.map (fun wv => (revGet sc.mapping wv.1, wv.2))) := by
  simpa [kwargsOf, pyDict] using kwargsOf_foldl_aux sc data []

theorem map_rev_wirePairs (sc : Schema) (data : List (String × JVal))
    (hrev : ∀ fv ∈ data, revGet sc.mapping (toWireName sc.mapping fv.1) = fv.1) :
    (wirePairs sc data).map (fun wv => (revGet sc.mapping wv.1, wv.2)) =
      kwPairs sc data := by
  induction data with
  | nil => rfl
  | cons fv rest ih =>
    have hhd := hrev fv (by simp)
    have htl : ∀ fv2 ∈ rest, revGet sc.mapping (toWireName sc.mapping fv2.1) = fv2.1 :=
      fun fv2 h2 => hrev fv2 (by simp [h2])
    rw [wirePairs_cons, kwPairs_cons]
    by_cases h : skipField sc fv = true
    · rw [if_pos h, if_pos h]
      exact ih htl
    · simp only [Bool.not_eq_true] at h
      rw [if_neg (by simp [h]), if_neg (by simp [h])]
      simp [ih htl, hhd]

theorem kwPairs_keys_sublist (sc : Schema) (data : List (String × JVal)) :
    List.Sublist (keysOf (kwPairs sc data)) (keysOf data) := by
  induction data with
  | nil => simp [kwPairs, keysOf]
  | cons fv rest ih =>
    have hk : keysOf (fv :: rest) = fv.1 :: keysOf rest := by simp [keysOf]
    rw [hk, kwPairs_cons]
    by_cases h : skipField sc fv = true
    · rw [if_pos h]
      exact List.Sublist.trans ih (List.sublist_cons_self fv.1 (keysOf rest))
    · simp only [Bool.not_eq_true] at h
      rw [if_neg (by simp [h])]
      have hcons : keysOf ((fv.1, serializeVal fv.2) :: kwPairs sc rest) =
          fv.1 :: keysOf (kwPairs sc rest) := by simp [keysOf]
      rw [hcons]
      exact List.Sublist.cons₂ fv.1 ih

theorem wirePairs_keys_eq (sc : Schema) (data : List (String × JVal)) :
    keysOf (wirePairs sc data) =
      (keysOf (kwPairs sc data)).map (toWireName sc.mapping) := by
  induction data with
  | nil => simp [wirePairs, kwPairs, keysOf]
  | cons fv rest ih =>
    rw [wirePairs_cons, kwPairs_cons]
    by_cases h : skipField sc fv = true
    · rw [if_pos h, if_pos h]
      exact ih
    · simp only [Bool.not_eq_true] at h
      rw [if_neg (by simp [h]), if_neg (by simp [h])]
      have h1 : keysOf ((toWireName sc.mapping fv.1, serializeVal fv.2) ::
          wirePairs sc rest) =
          toWireName sc.mapping fv.1 :: keysOf (wirePairs sc rest) := by
        simp [keysOf]
      have h2 : keysOf ((fv.1, serializeVal fv.2) :: kwPairs sc rest) =
          fv.1 :: keysOf (kwPairs sc rest) := by simp [keysOf]
      rw [h1, h2, List.map_cons, ih]

theorem lookup_eq_none_of_not_mem_keys (l : List (String × JVal)) (k : String)
    (h : k ∉ keysOf l) : l.lookup k = none := by
  induction l with
  | nil => rfl
  | cons p rest ih =>
    have hk : keysOf (p :: rest) = p.1 :: keysOf rest := by simp [keysOf]
    rw [hk] at h
    have hne : (k == p.1) = false := by
      have hx : k ≠ p.1 := fun he => h (by simp [he])
      simpa using hx
    simp only [List.lookup, hne]
    exact ih (fun hm => h (by simp [hm]))

theorem buildFields_cons_irrelevant (p : String × JVal)
    (kw : List (String × JVal)) (fs : List FieldSpec)
    (h : ∀ f ∈ fs, f.name ≠ p.1) :
    buildFields (p :: kw) fs = buildFields kw fs := by
  induction fs with
  | nil => rfl
  | cons f fs ih =>
    have hne : (f.name == p.1) = false := by
      have hx := h f (by simp)
      simpa using hx
    have htl := ih (fun f2 h2 => h f2 (by simp [h2]))
    simp [buildFields, List.lookup, hne, htl]

theorem buildFields_kwPairs (sc : Schema) (fields : List FieldSpec) :
    ∀ data : List (String × JVal),
      data.map Prod.fst = fields.map FieldSpec.name →
      (keysOf data).Nodup →
      (∀ f ∈ fields, sc.optionalFields.contains f.name = true →
        f.dflt = some JVal.vnull) →
      (∀ fv ∈ data, fv.2.isDt = false) →
      buildFields (kwPairs sc data) fields = Except.ok data := by
  induction fields with
  | nil =>
    intro data hnames _ _ _
    have : data = [] := by
      cases data with
      | nil => rfl
      | cons fv rest => simp at hnames
    subst this
    rfl
  | cons f fs ih =>
    intro data hnames hnd hopt hflat
    cases data with
    | nil => simp at hnames
    | cons fv rest =>
      simp only [List.map_cons, List.cons.injEq] at hnames
      obtain ⟨hname, hrest⟩ := hnames
      have hknd : keysOf (fv :: rest) = fv.1 :: keysOf rest := by simp [keysOf]
      rw [hknd] at hnd
      have hhd := (List.nodup_cons.mp hnd).1
      have htlnd := (List.nodup_cons.mp hnd).2
      have hoptl : ∀ f2 ∈ fs, sc.optionalFields.contains f2.name = true →
          f2.dflt = some JVal.vnull :=
        fun f2 h2 => hopt f2 (by simp [h2])
      have hflattl : ∀ fv2 ∈ rest, fv2.2.isDt = false :=
        fun fv2 h2 => hflat fv2 (by simp [h2])
      have ihres := ih rest hrest htlnd hoptl hflattl
      have hfnotin : ∀ f2 ∈ fs, f2.name ≠ fv.1 := by
        intro f2 h2 he
        have : f2.name ∈ fs.map FieldSpec.name := List.mem_map_of_mem _ h2
        rw [← hrest] at this
        exact hhd (he ▸ this)
      by_cases hskip : skipField sc fv = true
      · have hsk : fv.2.isNull = true ∧ sc.optionalFields.contains fv.1 = true := by
          have hx := hskip
          simp only [skipField, Bool.and_eq_true] at hx
          exact hx
        have hnull : fv.2 = JVal.vnull := (isNull_iff fv.2).mp hsk.1
        have hcontains : sc.optionalFields.contains fv.1 = true := hsk.2
        have hkw : kwPairs sc (fv :: rest) = kwPairs sc rest := by
          rw [kwPairs_cons, if_pos hskip]
        have hlook : (kwPairs sc rest).lookup f.name = none := by
          apply lookup_eq_none_of_not_mem_keys
          intro hm
          exact hhd (hname ▸ (kwPairs_keys_sublist sc rest).subset hm)
        have hdflt : f.dflt = some JVal.vnull :=
          hopt f (by simp) (hname ▸ hcontains)
        have hfveq : (f.name, JVal.vnull) = fv := by
          rw [← hname, ← hnull]
        rw [hkw]
        simp [buildFields, hlook, hdflt, ihres, hfveq, Except.map]
      · simp only [Bool.not_eq_true] at hskip
        have hser : serializeVal fv.2 = fv.2 :=
          serializeVal_of_not_dt fv.2 (hflat fv (by simp))
        have hkw : kwPairs sc (fv :: rest) =
            (fv.1, serializeVal fv.2) :: kwPairs sc rest := by
          rw [kwPairs_cons, if_neg (by simp [hskip])]
        have hbeq : (f.name == fv.1) = true := by simp [hname]
        have hdrop := buildFields_cons_irrelevant (fv.1, serializeVal fv.2)
          (kwPairs sc rest) fs (fun f2 h2 => hfnotin f2 h2)
        have hfveq : (f.name, serializeVal fv.2) = fv := by
          rw [← hname, hser]
        rw [hkw]
        simp [buildFields, List.lookup, hbeq, hdrop, ihres, hfveq, Except.map]

/-- C1: the DTO field-mapping round-trip law. For a dataclass DTO schema
whose wire renaming is reversible (`hrev`), whose field names are
distinct, whose optional fields default to `None`, and an instance
whose field values are flat non-datetime values (the values that
round-trip through the declared schema), deserializing the serialized
wire form restores the original instance:
`from_dict(to_dict(x)) == x`. Optional `None` fields are dropped by
`to_dict` and restored by the dataclass defaults; every other field is
carried through the mapping tables unchanged. -/
theorem dto_roundtrip (sc : Schema) (data : List (String × JVal))
    (hnames : data.map Prod.fst = sc.fields.map FieldSpec.name)
    (hnodup : (sc.fields.map FieldSpec.name).Nodup)
    (hrev : ∀ k ∈ keysOf data, revGet sc.mapping (toWireName sc.mapping k) = k)
    (hopt : ∀ f ∈ sc.fields, sc.optionalFields.contains f.name = true →
      f.dflt = some JVal.vnull)
    (hflat : ∀ fv ∈ data, fv.2.isDt = false) :
    fromDict sc (toDict sc data) = Except.ok data := by
  have hknd : (keysOf data).Nodup := by
    have : keysOf data = sc.fields.map FieldSpec.name := hnames
    rw [this]
    exact hnodup
  have hsub : ∀ k ∈ keysOf (kwPairs sc data), k ∈ keysOf data :=
    fun k hk => (kwPairs_keys_sublist sc data).subset hk
  have hkwnd : (keysOf (kwPairs sc data)).Nodup :=
    List.Nodup.sublist (kwPairs_keys_sublist sc data) hknd
  have hwnd : (keysOf (wirePairs sc data)).Nodup := by
    rw [wirePairs_keys_eq]
    refine List.Nodup.map_on ?_ hkwnd
    intro a ha b hb hab
    have h1 := hrev a (hsub a ha)
    have h2 := hrev b (hsub b hb)
    rw [← h1, hab, h2]
  have htd : toDict sc data = wirePairs sc data := by
    rw [toDict_eq_pyDict, pyDict_self _ hwnd]
  have hmap : (wirePairs sc data).map (fun wv => (revGet sc.mapping wv.1, wv.2)) =
      kwPairs sc data :=
    map_rev_wirePairs sc data
      (fun fv hfv => hrev fv.1 (List.mem_map_of_mem _ hfv))
  have hkw : kwargsOf sc (toDict sc data) = kwPairs sc data := by
    rw [htd, kwargsOf_eq_pyDict, hmap, pyDict_self _ hkwnd]
  have hall : (kwargsOf sc (toDict sc data)).all
      (fun kv => sc.fields.any (fun f => f.name == kv.1)) = true := by
    rw [hkw, List.all_eq_true]
    intro kv hkv
    have hmem : kv.1 ∈ keysOf data := hsub kv.1 (List.mem_map_of_mem _ hkv)
    rw [show keysOf data = sc.fields.map FieldSpec.name from hnames] at hmem
    obtain ⟨f, hf, hfname⟩ := List.mem_map.mp hmem
    rw [List.any_eq_true]
    exact ⟨f, hf, by simp [hfname]⟩
  have hbuild := buildFields_kwPairs sc sc.fields data hnames hknd hopt hflat
  rw [fromDict, if_pos hall, hkw, hbuild]

/-- Witness for C1: a concrete `ContactDTO` value with mapped, unmapped,
set and unset optional fields round-trips. -/
theorem dto_roundtrip_witness :
    (contactSchema.fields.map FieldSpec.name).Nodup ∧
    fromDict contactSchema (toDict contactSchema sampleContact) =
      Except.ok sampleContact :=
  ⟨by decide,
    dto_roundtrip contactSchema sampleContact (by decide) (by decide)
      (by decide) (by decide) (by decide)⟩

/-! ## C7: contact serialization -/

/-- C7: serializing a `ContactDTO` constructed with
`email="a@example.com"` and every other field unset produces exactly
the one-entry mapping; every unset optional field is omitted rather
than sent as a `None` placeholder. -/
theorem contact_email_only_serialization :
    toDict contactSchema contactEmailOnly = [("email", JVal.vstr "a@example.com")] :=
  rfl

/-! ## C5: unknown-key behaviour of from_dict -/

theorem keysOf_map_update (l : List (String × JVal)) (k : String) (v : JVal) :
    keysOf (l.map (fun p => if p.1 == k then (k, v) else p)) = keysOf l := by
  induction l with
  | nil => rfl
  | cons p rest ih =>
    have hhead : ((if p.1 == k then (k, v) else p) : String × JVal).1 = p.1 := by
      by_cases hpe : (p.1 == k) = true
      · rw [if_pos hpe]
        exact (beq_iff_eq.mp hpe).symm
      · rw [if_neg hpe]
    have hcons : keysOf ((p :: rest).map (fun p => if p.1 == k then (k, v) else p)) =
        ((if p.1 == k then (k, v) else p) : String × JVal).1 ::
          keysOf (rest.map (fun p => if p.1 == k then (k, v) else p)) := by
      simp [keysOf]
    have hk2 : keysOf (p :: rest) = p.1 :: keysOf rest := by simp [keysOf]
    rw [hcons, hhead, ih, hk2]

theorem keysOf_dictInsert (l : List (String × JVal)) (k : String) (v : JVal) :
    keysOf (dictInsert l k v) =
      if hasKey l k then keysOf l else keysOf l ++ [k] := by
  by_cases h : hasKey l k = true
  · rw [dictInsert, if_pos h, if_pos h, keysOf_map_update]
  · rw [dictInsert, if_neg h, if_neg h]
    simp [keysOf]

theorem mem_keys_dictInsert_self (l : List (String × JVal)) (k : String) (v : JVal) :
    k ∈ keysOf (dictInsert l k v) := by
  rw [keysOf_dictInsert]
  by_cases h : hasKey l k = true
  · rw [if_pos h]
    exact (hasKey_iff l k).mp h
  · rw [if_neg h]
    simp

theorem mem_keys_dictInsert_of_mem (l : List (String × JVal)) (k : String)
    (v : JVal) (k2 : String) (h : k2 ∈ keysOf l) :
    k2 ∈ keysOf (dictInsert l k v) := by
  rw [keysOf_dictInsert]
  by_cases hk : hasKey l k = true
  · rw [if_pos hk]
    exact h
  · rw [if_neg hk]
    exact List.mem_append_left _ h

theorem mem_keys_foldl_insert (ps : List (String × JVal)) :
    ∀ (acc : List (String × JVal)) (k : String),
      (k ∈ keysOf acc ∨ k ∈ keysOf ps) →
      k ∈ keysOf (ps.foldl (fun a p => dictInsert a p.1 p.2) acc) := by
  induction ps with
  | nil =>
    intro acc k h
    rcases h with h | h
    · simpa using h
    · simp [keysOf] at h
  | cons p ps ih =>
    intro acc k h
    rw [List.foldl_cons]
    apply ih (dictInsert acc p.1 p.2) k
    rcases h with h | h
    · exact Or.inl (mem_keys_dictInsert_of_mem acc p.1 p.2 k h)
    · have hk : keysOf (p :: ps) = p.1 :: keysOf ps := by simp [keysOf]
      rw [hk] at h
      rcases List.mem_cons.mp h with he | hm
      · exact Or.inl (he ▸ mem_keys_dictInsert_self acc p.1 p.2)
      · exact Or.inr hm

theorem mem_keys_pyDict (ps : List (String × JVal)) (k : String)
    (h : k ∈ keysOf ps) : k ∈ keysOf (pyDict ps) :=
  mem_keys_foldl_insert ps [] k (Or.inr h)

/-- C5 counterexample: a wire mapping carrying one extra undeclared key
makes `from_dict` fail with an unexpected-keyword error instead of
producing a `ContactDTO` instance. -/
theorem from_dict_unknown_key_errors :
    fromDict contactSchema
      [("email", JVal.vstr "a@example.com"), ("unknown_key", JVal.vint 1)] =
      Except.error "unexpected keyword argument" :=
  rfl

/-- C5 (amended): `from_dict` defaults every missing optional field, but
it does not ignore unknown keys: every incoming key is reverse-mapped
and handed to the dataclass constructor, so deserialization succeeds
only when each key lands on a declared field, and a mapping with an
extra undeclared key raises instead of producing an instance. -/
theorem from_dict_unknown_rejected_missing_defaulted :
    (∀ (sc : Schema) (data : List (String × JVal)),
      exceptOk (fromDict sc data) = true →
      ∀ kv ∈ data, revGet sc.mapping kv.1 ∈ sc.fields.map FieldSpec.name) ∧
    fromDict contactSchema [("email", JVal.vstr "a@example.com")] =
      Except.ok contactEmailOnly := by
  constructor
  · intro sc data hok kv hkv
    by_cases hall : ((kwargsOf sc data).all
        (fun kv => sc.fields.any (fun f => f.name == kv.1))) = true
    · have hkmem : revGet sc.mapping kv.1 ∈ keysOf (kwargsOf sc data) := by
        rw [kwargsOf_eq_pyDict]
        apply mem_keys_pyDict
        have hm : (revGet sc.mapping kv.1, kv.2) ∈
            data.map (fun wv => (revGet sc.mapping wv.1, wv.2)) :=
          List.mem_map_of_mem _ hkv
        exact List.mem_map.mpr ⟨_, hm, rfl⟩
      obtain ⟨p, hp, hpk⟩ := List.mem_map.mp hkmem
      have hany : sc.fields.any (fun f => f.name == p.1) = true :=
        List.all_eq_true.mp hall p hp
      obtain ⟨f, hf, hfe⟩ := List.any_eq_true.mp hany
      have hfn : f.name = revGet sc.mapping kv.1 := by
        rw [beq_iff_eq.mp hfe, hpk]
      exact List.mem_map.mpr ⟨f, hf, hfn⟩
    · rw [fromDict, if_neg hall] at hok
      simp [exceptOk] at hok
  · rfl

/-- Witness for the amended C5: a successful deserialization lands the
incoming `email` key on the declared `email` field. -/
theorem from_dict_unknown_rejected_witness :
    revGet contactSchema.mapping "email" ∈ contactSchema.fields.map FieldSpec.name :=
  from_dict_unknown_rejected_missing_defaulted.1 contactSchema
    [("email", JVal.vstr "a@example.com")] rfl
    ("email", JVal.vstr "a@example.com") (by simp)

/-! ## C3, C4, C9: SMS campaign validation -/

theorem isSome_false_of_isNone {α : Type} (o : Option α) (h : o.isNone = true) :
    o.isSome = false := by
  cases o <;> simp_all

theorem isSome_of_not_isNone {α : Type} (o : Option α) (h : ¬ o.isNone = true) :
    o.isSome = true := by
  cases o <;> simp_all

theorem validateSMSCampaign_ok_iff (alpha : Char → Bool) (inp : SMSCampaignInput) :
    exceptOk (validateSMSCampaign alpha inp) = true ↔
      (inp.name.isSome = true ∧ inp.content.isSome = true ∧
       inp.unsubscribe_text.isSome = true ∧ inp.segment.isSome = true ∧
       inp.scheduling.isSome = true ∧
       validateFromNameCheck alpha inp.from_name = true ∧
       (pyTruthyStr inp.from_name = true ∨
        pyTruthyInt inp.sms_sending_profile_id = true)) := by
  unfold validateSMSCampaign
  split_ifs with h1 h2 h3 h4 h5 h6 h7
  · simp [exceptOk, isSome_false_of_isNone _ h1]
  · simp [exceptOk, isSome_false_of_isNone _ h2]
  · simp [exceptOk, isSome_false_of_isNone _ h3]
  · simp [exceptOk, isSome_false_of_isNone _ h4]
  · simp [exceptOk, isSome_false_of_isNone _ h5]
  · have h6x : validateFromNameCheck alpha inp.from_name = false := by simpa using h6
    simp [exceptOk, h6x]
  · have h7x : pyTruthyStr inp.from_name = false ∧
        pyTruthyInt inp.sms_sending_profile_id = false := by
      simpa using h7
    simp [exceptOk, h7x.1, h7x.2]
  · have h6x : validateFromNameCheck alpha inp.from_name = true := by simpa using h6
    have h7x : pyTruthyStr inp.from_name = true ∨
        pyTruthyInt inp.sms_sending_profile_id = true := by
      cases ha : pyTruthyStr inp.from_name with
      | true => exact Or.inl rfl
      | false =>
        cases hb : pyTruthyInt inp.sms_sending_profile_id with
        | true => exact Or.inr rfl
        | false => exact absurd (by simp [ha, hb]) h7
    simp [exceptOk, isSome_of_not_isNone _ h1, isSome_of_not_isNone _ h2,
      isSome_of_not_isNone _ h3, isSome_of_not_isNone _ h4,
      isSome_of_not_isNone _ h5, h6x, h7x]

/-- C3 counterexample: a campaign supplying both the sender name and the
sending-profile id passes validation, so the mutual-exclusion half of
the claim is false on the code. -/
theorem sender_both_given_accepted :
    smsBothSenders.from_name = some "Brand" ∧
    smsBothSenders.sms_sending_profile_id = some 5 ∧
    validateSMSCampaign asciiAlpha smsBothSenders = Except.ok smsBothSenders :=
  ⟨rfl, rfl, rfl⟩

/-- C3 (amended): with the remaining field validations passing, the
sender check requires at least one of the two sender fields to be
Python-truthy — validation fails when neither is given (absent, empty
string, or zero), and supplying both is accepted. -/
theorem sms_sender_at_least_one (alpha : Char → Bool) (inp : SMSCampaignInput)
    (h1 : inp.name.isSome = true) (h2 : inp.content.isSome = true)
    (h3 : inp.unsubscribe_text.isSome = true) (h4 : inp.segment.isSome = true)
    (h5 : inp.scheduling.isSome = true)
    (h6 : validateFromNameCheck alpha inp.from_name = true) :
    exceptOk (validateSMSCampaign alpha inp) = true ↔
      (pyTruthyStr inp.from_name = true ∨
       pyTruthyInt inp.sms_sending_profile_id = true) := by
  rw [validateSMSCampaign_ok_iff]
  simp [h1, h2, h3, h4, h5, h6]

/-- Witness for the amended C3: both senders supplied is accepted, and
the same campaign with neither sender is rejected. -/
theorem sms_sender_at_least_one_witness :
    exceptOk (validateSMSCampaign asciiAlpha smsBothSenders) = true ∧
    exceptOk (validateSMSCampaign asciiAlpha smsNeitherSender) = false := by
  constructor
  · exact (sms_sender_at_least_one asciiAlpha smsBothSenders rfl rfl rfl rfl rfl
      (by decide)).mpr (Or.inr (by decide))
  · have hx := (sms_sender_at_least_one asciiAlpha smsNeitherSender rfl rfl rfl rfl rfl
      (by decide))
    cases hv : exceptOk (validateSMSCampaign asciiAlpha smsNeitherSender) with
    | false => rfl
    | true =>
      have := hx.mp hv
      rcases this with h | h
      · exact absurd h (by decide)
      · exact absurd h (by decide)

/-- C4: a campaign input with both sender fields absent fails
`SMSCampaignDTO` validation, and `SMSCampaignsAPI.create` and
`SMSCampaignsAPI.update` therefore issue no HTTP request at all:
validation happens strictly before the wire. -/
theorem create_no_request_when_sender_missing (alpha : Char → Bool)
    (inp : SMSCampaignInput)
    (hfn : inp.from_name = none) (hpid : inp.sms_sending_profile_id = none) :
    exceptOk (validateSMSCampaign alpha inp) = false ∧
    smsCreateRequests alpha inp = [] ∧ smsUpdateRequests alpha inp = [] := by
  have hval : exceptOk (validateSMSCampaign alpha inp) = false := by
    unfold validateSMSCampaign
    rw [hfn, hpid]
    split_ifs with g1 g2 g3 g4 g5 g6 g7
    · rfl
    · rfl
    · rfl
    · rfl
    · rfl
    · rfl
    · rfl
    · exact absurd (by decide) g7
  refine ⟨hval, ?_, ?_⟩
  · unfold smsCreateRequests
    cases hv : validateSMSCampaign alpha inp with
    | error e => rfl
    | ok c =>
      rw [hv] at hval
      simp [exceptOk] at hval
  · unfold smsUpdateRequests
    cases hv : validateSMSCampaign alpha inp with
    | error e => rfl
    | ok c =>
      rw [hv] at hval
      simp [exceptOk] at hval

/-- Witness for C4 at a fully-populated campaign lacking both sender
fields. -/
theorem create_no_request_witness :
    smsNeitherSender.from_name = none ∧
    smsNeitherSender.sms_sending_profile_id = none ∧
    (exceptOk (validateSMSCampaign asciiAlpha smsNeitherSender) = false ∧
      smsCreateRequests asciiAlpha smsNeitherSender = [] ∧
      smsUpdateRequests asciiAlpha smsNeitherSender = []) :=
  ⟨rfl, rfl,
    create_no_request_when_sender_missing asciiAlpha smsNeitherSender rfl rfl⟩

/-- C9: with the other validations passing, a supplied `from_name` is
accepted exactly when it consists solely of alphabetic characters
(hence is non-empty, matching Python `str.isalpha`) and has length at
most 11; any longer value or any value containing a digit, space or
special character is rejected. The statement holds for every
alphabetic-character classification `alpha`, in particular for the
Unicode classification Python actually uses, under which a name such
as `Grüße` is accepted. `ApiSMSCampaignDetailsDTO` carries the
identical validator (`validateFromNameCheck`). -/
theorem from_name_validation_characterization (alpha : Char → Bool) (v : String)
    (inp : SMSCampaignInput) (hfn : inp.from_name = some v)
    (h1 : inp.name.isSome = true) (h2 : inp.content.isSome = true)
    (h3 : inp.unsubscribe_text.isSome = true) (h4 : inp.segment.isSome = true)
    (h5 : inp.scheduling.isSome = true) :
    exceptOk (validateSMSCampaign alpha inp) = true ↔
      ((v.data ≠ [] ∧ ∀ c ∈ v.data, alpha c = true) ∧ v.length ≤ 11) := by
  rw [validateSMSCampaign_ok_iff]
  simp only [h1, h2, h3, h4, h5, hfn, eq_self_iff_true, true_and]
  constructor
  · rintro ⟨hc, _⟩
    have := hc
    simp [validateFromNameCheck, pyIsAlpha, Bool.and_eq_true,
      List.all_eq_true, List.isEmpty_iff] at this
    exact ⟨⟨this.1.1, this.1.2⟩, this.2⟩
  · rintro ⟨⟨hne, hall⟩, hlen⟩
    have hc : validateFromNameCheck alpha (some v) = true := by
      simp [validateFromNameCheck, pyIsAlpha, Bool.and_eq_true,
        List.all_eq_true, List.isEmpty_iff, hne, hlen]
      exact hall
    refine ⟨hc, Or.inl ?_⟩
    simp [pyTruthyStr, List.isEmpty_iff, hne]

/-- Witness for C9: an alphabetic sender name of length 5 passes the
full validation pipeline. -/
theorem from_name_validation_witness :
    exceptOk (validateSMSCampaign asciiAlpha smsFromNameOnly) = true :=
  (from_name_validation_characterization asciiAlpha "Promo" smsFromNameOnly
    rfl rfl rfl rfl rfl rfl).mpr (by decide)

/-! ## C6: phone-number validation -/

/-- C6 counterexample: the Israeli phone-number utility accepts the
local number `0501234567`, which carries no country-code prefix, and
the SMS mobile validator accepts the bare string `+`, which has no
country code after the plus sign. -/
theorem phone_without_country_prefix_accepted :
    validateIsraeliPhoneNumber "0501234567" = true ∧
    strStartsWith "0501234567" "+" = false ∧
    validateApiSMSMobile "+" = Except.ok "+" :=
  ⟨by decide, by decide, rfl⟩

/-- C6 (amended): `ApiSMSMobileDTO` rejects exactly the phone numbers
that are empty or do not start with `+` — it does not check that a
country code follows — while `validate_israeli_phone_number` also
accepts local numbers starting with `0` that carry no country-code
prefix at all. -/
theorem mobile_phone_validation_characterization :
    (∀ s : String, exceptOk (validateApiSMSMobile s) = true ↔
      (s.data ≠ [] ∧ strStartsWith s "+" = true)) ∧
    validateIsraeliPhoneNumber "0501234567" = true := by
  constructor
  · intro s
    unfold validateApiSMSMobile
    cases hemp : s.data.isEmpty with
    | true =>
      have hnil : s.data = [] := by simpa [List.isEmpty_iff] using hemp
      rw [if_pos (by simp)]
      simp [exceptOk, hnil]
    | false =>
      cases hsw : strStartsWith s "+" with
      | true =>
        have hne : s.data ≠ [] := by
          intro hn
          rw [hn] at hemp
          simp at hemp
        rw [if_neg (by simp)]
        simp [exceptOk, hsw, hne]
      | false =>
        rw [if_pos (by simp)]
        simp [exceptOk, hsw]
  · decide

/-! ## C2 and C10: error taxonomy -/

/-- C2 (code bug evidence): the status-to-exception mapping of
`ActiveTrailClient.request` and `AsyncActiveTrailClient._request` sends
404, 400 and 500 — and every transport failure — to the generic
`ActiveTrailError`; only 401 and 429 get their dedicated classes, in
contradiction with the spec and the repository's own
`tests/test_client.py` (`test_not_found_error`, `test_server_error`,
`test_validation_error`, `test_network_error`). -/
theorem client_error_mapping_divergence :
    mapHTTPStatusError 404 = ExcKind.activeTrailError ∧
    mapHTTPStatusError 404 ≠ ExcKind.notFoundError ∧
    mapHTTPStatusError 400 = ExcKind.activeTrailError ∧
    mapHTTPStatusError 500 = ExcKind.activeTrailError ∧
    requestFailureError = ExcKind.activeTrailError ∧
    requestFailureError ≠ ExcKind.networkError ∧
    mapHTTPStatusError 401 = ExcKind.authenticationError ∧
    mapHTTPStatusError 429 = ExcKind.rateLimitError := by
  decide

/-- C10: every typed exception class of `exceptions.py` subclasses the
single base `ActiveTrailError`, and every exception the client's error
paths raise is a subclass of `ActiveTrailError`, so an
`except ActiveTrailError` handler catches every failing client
operation. -/
theorem exception_hierarchy_catch_all :
    IsSubclassOf ExcKind.authenticationError ExcKind.activeTrailError ∧
    IsSubclassOf ExcKind.rateLimitError ExcKind.activeTrailError ∧
    IsSubclassOf ExcKind.validationError ExcKind.activeTrailError ∧
    IsSubclassOf ExcKind.notFoundError ExcKind.activeTrailError ∧
    IsSubclassOf ExcKind.serverError ExcKind.activeTrailError ∧
    IsSubclassOf ExcKind.networkError ExcKind.activeTrailError ∧
    (∀ status : Nat,
      IsSubclassOf (mapHTTPStatusError status) ExcKind.activeTrailError) ∧
    IsSubclassOf requestFailureError ExcKind.activeTrailError := by
  refine ⟨?_, ?_, ?_, ?_, ?_, ?_, ?_, ?_⟩
  · exact IsSubclassOf.step rfl (IsSubclassOf.refl _)
  · exact IsSubclassOf.step rfl (IsSubclassOf.refl _)
  · exact IsSubclassOf.step rfl (IsSubclassOf.refl _)
  · exact IsSubclassOf.step rfl (IsSubclassOf.refl _)
  · exact IsSubclassOf.step rfl (IsSubclassOf.refl _)
  · exact IsSubclassOf.step rfl (IsSubclassOf.refl _)
  · intro status
    unfold mapHTTPStatusError
    by_cases hx : (status == 401) = true
    · rw [if_pos hx]
      exact IsSubclassOf.step rfl (IsSubclassOf.refl _)
    · rw [if_neg hx]
      by_cases hy : (status == 429) = true
      · rw [if_pos hy]
        exact IsSubclassOf.step rfl (IsSubclassOf.refl _)
      · rw [if_neg hy]
        exact IsSubclassOf.refl _
  · exact IsSubclassOf.refl _

end ActiveTrail
